import Mathlib

/-!
Shallow embedding of the webhook delivery engine of
`src/src/contexts/WebhookContext.tsx` (the file every claim cites).

Host functions are modelled as oracle parameters:
  * `fetch` becomes `endpoint : Nat → FetchResult`, giving the result of the
    i-th HTTP attempt of a delivery sequence (0-based);
  * `new URL(url).protocol` becomes `urlParse : String → Option String`
    (`none` models the constructor throwing);
  * `JSON.parse` success becomes `jsonOk : String → Bool`;
  * `new Date().toISOString()` / `Date.now()` become explicit `now` /
    `responseTime` arguments.

React state: the provider holds `webhooks : List Webhook` (via `useState`);
`setWebhooks`+`saveWebhooks` replace the whole collection.  Crucially, an
async function such as `triggerWebhook` closes over the `webhooks` value of
the render in which it was created, so every `webhooks.map(...)` inside it
reads that captured snapshot, not the latest state.  The embedding makes
this snapshot (`base`) explicit.
-/

/-- Result of one `fetch` call: either an HTTP response (status and
statusText) or a thrown transport/timeout error with its message. -/
inductive FetchResult where
  | response (status : Nat) (statusText : String)
  | netError (msg : String)
deriving DecidableEq, Repr

/-- `response.ok`: status in the 2xx range; a transport error has no
response and is never ok. -/
def FetchResult.ok : FetchResult → Bool
  | .response s _ => 200 ≤ s && s < 300
  | .netError _ => false

/-- Status code of a response (unused on the transport-error side, where the
source has no `response` object at all). -/
def FetchResult.statusOf : FetchResult → Nat
  | .response s _ => s
  | .netError _ => 0

/-- The error message the delivery loop sees for a failed attempt: the
source throws `HTTP ${status}: ${statusText}` on a non-ok response, and the
caught transport error carries its own message. -/
def FetchResult.errMsg : FetchResult → String
  | .response s st => "HTTP " ++ toString s ++ ": " ++ st
  | .netError m => m

/-- The persisted `Webhook` record (interface `Webhook` in the source). -/
structure Webhook where
  id : String
  name : String
  url : String
  method : String
  headers : List (String × String)
  body : String
  active : Bool
  createdAt : String
  updatedAt : String
  lastTriggered : Option String := none
  lastStatus : Option Nat := none
  lastError : Option String := none
  triggerCount : Nat := 0
  successCount : Nat := 0
  failureCount : Nat := 0
  timeout : Nat := 30000
  retries : Nat := 3
  retryDelay : Nat := 1000
deriving DecidableEq, Repr

/-- Creation / update payload (`WebhookCreateData`, used with `Partial`):
`none` models an absent (`undefined`) field. -/
structure WebhookCreateData where
  name : Option String := none
  url : Option String := none
  method : Option String := none
  headers : Option (List (String × String)) := none
  body : Option String := none
  active : Option Bool := none
  timeout : Option Nat := none
  retries : Option Nat := none
  retryDelay : Option Nat := none
deriving DecidableEq, Repr

/-- Return value of `testWebhook` (interface `WebhookTestResult`). -/
structure WebhookTestResult where
  success : Bool
  status : Option Nat := none
  error : Option String := none
  responseTime : Nat
  timestamp : String
deriving DecidableEq, Repr

/-! ## Validation (`webhookValidation` and `validateWebhookData`) -/

/-- Whitespace for the trim model. -/
def isWS (c : Char) : Bool := c = ' ' ∨ c = '\t' ∨ c = '\n' ∨ c = '\r'

/-- `String.prototype.trim`: strip whitespace from both ends. -/
def strTrim (s : String) : String :=
  String.mk (((s.data.dropWhile isWS).reverse.dropWhile isWS).reverse)

structure ValidationResult where
  valid : Bool
  message : String
deriving DecidableEq, Repr

/-- `webhookValidation.validateUrl`: empty string is required-error; then
`new URL(url)` (the `urlParse` oracle) must succeed and give an http(s)
protocol. -/
def validateUrl (urlParse : String → Option String) (url : String) : ValidationResult :=
  if url = "" then ⟨false, "URL is required"⟩
  else
    match urlParse url with
    | some proto =>
        if proto = "http:" ∨ proto = "https:" then ⟨true, "Valid URL"⟩
        else ⟨false, "URL must use HTTP or HTTPS protocol"⟩
    | none => ⟨false, "Invalid URL format"⟩

/-- `webhookValidation.validateMethod`. -/
def validateMethod (method : String) : ValidationResult :=
  if method.toUpper = "GET" ∨ method.toUpper = "POST" ∨ method.toUpper = "PUT"
      ∨ method.toUpper = "PATCH" ∨ method.toUpper = "DELETE" then
    ⟨true, "Valid HTTP method"⟩
  else ⟨false, "Invalid HTTP method"⟩

/-- `webhookValidation.validateTimeout` (the `NaN` branch cannot arise for a
natural-number timeout). -/
def validateTimeout (timeout : Nat) : ValidationResult :=
  if 1000 ≤ timeout ∧ timeout ≤ 120000 then ⟨true, "Valid timeout"⟩
  else ⟨false, "Timeout must be between 1000ms and 120000ms"⟩

/-- `webhookValidation.validateRetries`. -/
def validateRetries (retries : Nat) : ValidationResult :=
  if retries ≤ 10 then ⟨true, "Valid retry count"⟩
  else ⟨false, "Retries must be between 0 and 10"⟩

/-- `webhookValidation.validateHeaders`: for a typed
`Record<string,string>` every entry is a string pair, so the loop never
finds a violation. -/
def validateHeaders (_headers : List (String × String)) : ValidationResult :=
  ⟨true, "Valid headers"⟩

/-- `webhookValidation.validateBody`: empty body is optional; otherwise
`JSON.parse` (the `jsonOk` oracle) must succeed. -/
def validateBody (jsonOk : String → Bool) (body : String) : ValidationResult :=
  if body = "" then ⟨true, "Body is optional"⟩
  else if jsonOk body then ⟨true, "Valid JSON body"⟩
  else ⟨false, "Body must be valid JSON"⟩

/-- `validateWebhookData`: collects error messages of every failing check,
in source order (name, url, method, headers, body, timeout, retries).
JavaScript truthiness: `data.name?.trim()` is falsy when `name` is absent
or trims to empty; `if (data.url)` / `if (data.method)` / `if (data.body)`
skip the check when the field is absent or the empty string;
`data.timeout !== undefined` / `data.retries !== undefined` check whenever
the field is present.  Returns `(errors.isEmpty, errors)`. -/
def validateWebhookData (urlParse : String → Option String) (jsonOk : String → Bool)
    (data : WebhookCreateData) : Bool × List String :=
  let e1 := match data.name with
    | none => ["Name is required"]
    | some n => if strTrim n = "" then ["Name is required"] else []
  let e2 := match data.url with
    | none => ["URL is required"]
    | some u =>
        if u = "" then ["URL is required"]
        else
          let v := validateUrl urlParse u
          if v.valid then [] else [v.message]
  let e3 := match data.method with
    | none => []
    | some m => if m = "" then [] else
        (let v := validateMethod m; if v.valid then [] else [v.message])
  let e4 := match data.headers with
    | none => []
    | some h => (let v := validateHeaders h; if v.valid then [] else [v.message])
  let e5 := match data.body with
    | none => []
    | some b => if b = "" then [] else
        (let v := validateBody jsonOk b; if v.valid then [] else [v.message])
  let e6 := match data.timeout with
    | none => []
    | some t => (let v := validateTimeout t; if v.valid then [] else [v.message])
  let e7 := match data.retries with
    | none => []
    | some r => (let v := validateRetries r; if v.valid then [] else [v.message])
  let errors := e1 ++ e2 ++ e3 ++ e4 ++ e5 ++ e6 ++ e7
  (errors.isEmpty, errors)

/-! ## Store mutations -/

/-- `Array.prototype.join(sep)` on the error list. -/
def joinWith (sep : String) : List String → String
  | [] => ""
  | [a] => a
  | a :: rest => a ++ sep ++ joinWith sep rest

/-- The default body template the source builds with `JSON.stringify`
(double braces written with hex escapes). -/
def defaultBodyTemplate : String :=
  "\x7b\"message\":\"\x7b\x7bmessage\x7d\x7d\",\"user\":\"\x7b\x7buser\x7d\x7d\",\"timestamp\":\"\x7b\x7btimestamp\x7d\x7d\"\x7d"

/-- The `newWebhook` record `addWebhook` builds — note the `||` falsy
defaulting on `method`, `body`, `timeout`, `retries`, `retryDelay` (an
explicit `0` or empty string falls back to the global default), while
`active` uses `!== undefined` and so honours an explicit `false`. -/
def builtWebhook (data : WebhookCreateData) (newId now : String) : Webhook := {
  id := newId
  name := strTrim (data.name.getD "")
  url := data.url.getD ""
  method := match data.method with
    | some m => if m = "" then "POST" else m
    | none => "POST"
  headers := match data.headers with
    | some h => h
    | none => [("Content-Type", "application/json")]
  body := match data.body with
    | some b => if b = "" then defaultBodyTemplate else b
    | none => defaultBodyTemplate
  active := data.active.getD true
  timeout := match data.timeout with
    | some t => if t = 0 then 30000 else t
    | none => 30000
  retries := match data.retries with
    | some r => if r = 0 then 3 else r
    | none => 3
  retryDelay := match data.retryDelay with
    | some d => if d = 0 then 1000 else d
    | none => 1000
  createdAt := now
  updatedAt := now
  triggerCount := 0
  successCount := 0
  failureCount := 0 }

/-- `addWebhook`: validate (throwing the joined error list on failure),
build the record, append it and persist.  Returns the new collection and
the new id. -/
def addWebhook (urlParse : String → Option String) (jsonOk : String → Bool)
    (webhooks : List Webhook) (data : WebhookCreateData) (newId now : String) :
    Except String (List Webhook × String) :=
  let v := validateWebhookData urlParse jsonOk data
  if v.1 then
    .ok (webhooks ++ [builtWebhook data newId now], newId)
  else .error (joinWith ", " v.2)

/-- The collection after an `addWebhook` call: on a thrown validation error
no `setWebhooks`/`saveWebhooks` ran, so the state is the prior one. -/
def addWebhookState (urlParse : String → Option String) (jsonOk : String → Bool)
    (webhooks : List Webhook) (data : WebhookCreateData) (newId now : String) :
    List Webhook :=
  match addWebhook urlParse jsonOk webhooks data newId now with
  | .error _ => webhooks
  | .ok (st, _) => st

/-- The object-spread merge `\x7b ...webhook, ...data, updatedAt \x7d`:
fields present in `data` override, absent ones keep the record's value. -/
def mergeData (w : Webhook) (data : WebhookCreateData) (now : String) : Webhook :=
  { w with
    name := data.name.getD w.name
    url := data.url.getD w.url
    method := data.method.getD w.method
    headers := data.headers.getD w.headers
    body := data.body.getD w.body
    active := data.active.getD w.active
    timeout := data.timeout.getD w.timeout
    retries := data.retries.getD w.retries
    retryDelay := data.retryDelay.getD w.retryDelay
    updatedAt := now }

/-- `updateWebhook`: validates the payload with the same
`validateWebhookData` used by `addWebhook` (throwing the joined errors),
then maps the merge over the collection and persists. -/
def updateWebhook (urlParse : String → Option String) (jsonOk : String → Bool)
    (webhooks : List Webhook) (id : String) (data : WebhookCreateData) (now : String) :
    Except String (List Webhook) :=
  let v := validateWebhookData urlParse jsonOk data
  if v.1 then
    .ok (webhooks.map fun w => if w.id = id then mergeData w data now else w)
  else .error (joinWith ", " v.2)

/-- `deleteWebhook`: filter the id out and persist. -/
def deleteWebhook (webhooks : List Webhook) (id : String) : List Webhook :=
  webhooks.filter fun w => w.id ≠ id

/-- `toggleWebhook`: flip `active` and bump `updatedAt` on the matching
record, persist. -/
def toggleWebhook (webhooks : List Webhook) (id : String) (now : String) : List Webhook :=
  webhooks.map fun w =>
    if w.id = id then { w with active := !w.active, updatedAt := now } else w

/-! ## Test probe (`testWebhook`) -/

/-- `testWebhook`: renders the body with fixed test data, performs exactly
one `fetch` (no loop in the source), and returns a `WebhookTestResult` —
`success`/`status` from the response, or `error` from a caught transport
error.  It contains no `setWebhooks`/`saveWebhooks` call, so the collection
is passed through untouched; the final `Nat` counts the `fetch` calls the
source issues (a single fetch statement). -/
def testWebhook (webhooks : List Webhook) (_w : Webhook) (endpoint : Nat → FetchResult)
    (responseTime : Nat) (now : String) : List Webhook × WebhookTestResult × Nat :=
  let res : WebhookTestResult :=
    match endpoint 0 with
    | .response s _ =>
        { success := 200 ≤ s && s < 300, status := some s,
          responseTime := responseTime, timestamp := now }
    | .netError m =>
        { success := false, error := some m,
          responseTime := responseTime, timestamp := now }
  (webhooks, res, 1)

/-! ## Delivery with retry (`triggerWebhook` / `triggerWebhooks`) -/

/-- Outcome of one webhook's delivery sequence: the loop exits either with
`success = true` (after recording success stats) or by exhausting retries
(after recording failure stats with the last caught error). -/
inductive TriggerOutcome where
  | delivered (status : Nat)
  | retriesExhausted (lastError : String)
deriving DecidableEq, Repr

/-- The `while (attempt <= webhook.retries && !success)` loop of
`triggerWebhook`.  `idx` is the 0-based index of the next `fetch` ("one
fetch per iteration"); `remaining` is `retries - attempt`.  On an ok
response the loop stops at once; on a failure, `attempt` is incremented and
the loop either sleeps and retries (`remaining > 0`) or records the last
error (`remaining = 0`).  Returns the outcome and the number of fetch
attempts performed.  The per-iteration body rendering and the timeout
cancellation are abstracted into the `endpoint` oracle. -/
def deliverLoop (endpoint : Nat → FetchResult) : Nat → Nat → TriggerOutcome × Nat
  | idx, 0 =>
      if (endpoint idx).ok then (.delivered (endpoint idx).statusOf, idx + 1)
      else (.retriesExhausted (endpoint idx).errMsg, idx + 1)
  | idx, n + 1 =>
      if (endpoint idx).ok then (.delivered (endpoint idx).statusOf, idx + 1)
      else deliverLoop endpoint (idx + 1) n

/-- The stat update `webhooks.map(w => ...)` run on success or on retry
exhaustion: success bumps `triggerCount`/`successCount` and sets
`lastTriggered`/`lastStatus`, clearing `lastError`; failure bumps
`triggerCount`/`failureCount` and sets `lastTriggered`/`lastError` — and
leaves `lastStatus` as it was (the source's failure branch does not touch
it). -/
def applyOutcome (w : Webhook) (o : TriggerOutcome) (now : String) : Webhook :=
  match o with
  | .delivered s =>
      { w with triggerCount := w.triggerCount + 1, successCount := w.successCount + 1,
               lastTriggered := some now, lastStatus := some s, lastError := none }
  | .retriesExhausted e =>
      { w with triggerCount := w.triggerCount + 1, failureCount := w.failureCount + 1,
               lastTriggered := some now, lastError := some e }

/-- The collection a sequence writes with `setWebhooks`/`saveWebhooks`:
a map over the captured snapshot `base` (the stale closure value), updating
only the record with the sequence's webhook id. -/
def recordWrite (base : List Webhook) (wid : String) (o : TriggerOutcome) (now : String) :
    List Webhook :=
  base.map fun w => if w.id = wid then applyOutcome w o now else w

/-- `triggerWebhook`: returns immediately when the webhook is inactive
(no fetch, no write); otherwise runs the retry loop and performs the single
stat write for its outcome.  Result: the collection the sequence wrote
(computed from the snapshot `base`), and the sequence's outcome and attempt
count (`none` when inactive). -/
def triggerWebhook (base : List Webhook) (w : Webhook) (endpoint : Nat → FetchResult)
    (now : String) : List Webhook × Option (TriggerOutcome × Nat) :=
  if w.active then
    let r := deliverLoop endpoint 0 w.retries
    (recordWrite base w.id r.1 now, some r)
  else (base, none)

/-- `triggerWebhooks`: filters to the active webhooks, runs every sequence
(`Promise.allSettled` awaits them all), and resolves with `undefined`
(`Promise<void>`) — modelled by the `Unit` component.  Every sequence's
single stat write maps over the same captured snapshot `ws`, and
`setWebhooks` replaces the state, so the state after all writes is the last
write (the `foldl` ignores the accumulated state exactly as the stale
closure does; list order stands in for completion order).  The middle
component logs, per active webhook in order, its id, outcome and attempt
count. -/
def triggerWebhooks (ws : List Webhook) (endpoints : String → Nat → FetchResult)
    (now : String) : (List Webhook × List (String × TriggerOutcome × Nat)) × Unit :=
  let active := ws.filter fun w => w.active
  let log := active.map fun w =>
    (w.id, deliverLoop (endpoints w.id) 0 w.retries)
  let final := active.foldl
    (fun _st w => recordWrite ws w.id (deliverLoop (endpoints w.id) 0 w.retries).1 now) ws
  ((final, log), ())

/-! ## Template rendering

`triggerWebhook` renders the body with three global regex replacements, in
this order: the double-brace `message` placeholder with the message text,
the `user` placeholder with `user || 'Anonymous'`, and the `timestamp`
placeholder with the current ISO timestamp (`testWebhook` does the same
with fixed test data).  Strings are modelled as `List Char`;
`String.prototype.replace(/pat/g, r)` scans left to right, replaces each
non-overlapping occurrence, and never rescans the inserted replacement. -/

/-- `p` is a leading segment of `s`. -/
def startsWithL : List Char → List Char → Bool
  | [], _ => true
  | _ :: _, [] => false
  | p :: ps, c :: cs => p = c && startsWithL ps cs

/-- One step of the global replace, with explicit fuel so the definition is
structural (each step consumes at least one character of `s`, so
`fuel = s.length` never runs out). -/
def replaceAllFuel (p r : List Char) : Nat → List Char → List Char
  | 0, s => s
  | fuel + 1, s =>
      match s with
      | [] => []
      | c :: cs =>
          if p ≠ [] && startsWithL p (c :: cs) then
            r ++ replaceAllFuel p r fuel (List.drop p.length (c :: cs))
          else c :: replaceAllFuel p r fuel cs

/-- `s.replace(/p/g, r)` for a non-empty literal pattern `p`. -/
def replaceAll (p r s : List Char) : List Char :=
  replaceAllFuel p r s.length s

/-- `p` occurs as a contiguous segment of `s` (Boolean scan). -/
def occursB (p : List Char) : List Char → Bool
  | [] => startsWithL p []
  | c :: cs => startsWithL p (c :: cs) || occursB p cs

/-- Join segments with a separator; `joinSegs sep segs` is `segs`
interleaved with `sep`. -/
def joinSegs (sep : List Char) : List (List Char) → List Char
  | [] => []
  | [t] => t
  | t :: rest => t ++ sep ++ joinSegs sep rest

/-- The `message` placeholder literal. -/
def msgPat : List Char := "\x7b\x7bmessage\x7d\x7d".toList

/-- The `user` placeholder literal. -/
def userPat : List Char := "\x7b\x7buser\x7d\x7d".toList

/-- The `timestamp` placeholder literal. -/
def tsPat : List Char := "\x7b\x7btimestamp\x7d\x7d".toList

/-- The three-stage body rendering of `triggerWebhook`/`testWebhook`:
replace the `message` placeholder, then `user`, then `timestamp`. -/
def renderBody (body msg user ts : List Char) : List Char :=
  replaceAll tsPat ts (replaceAll userPat user (replaceAll msgPat msg body))

/-! ## Concrete sample data for witnesses and counterexamples -/

/-- A plausible `new URL(...).protocol` oracle: succeeds on the one sample
address used below, throws on everything else. -/
def upSample : String → Option String :=
  fun s => if s = "http://example.com" then some "http:" else none

/-- A `JSON.parse` oracle that accepts everything (no witness below
exercises the body check). -/
def jkSample : String → Bool := fun _ => true

/-- An endpoint that fails every attempt with a transport error. -/
def epFail : Nat → FetchResult := fun _ => .netError "ECONNREFUSED"

/-- An endpoint that succeeds on every attempt. -/
def epOk : Nat → FetchResult := fun _ => .response 200 "OK"

/-- A stored webhook, id `a`, counters at zero, `retries = 2`. -/
def wA : Webhook := {
  id := "a", name := "A", url := "http://example.com", method := "POST"
  headers := [("Content-Type", "application/json")], body := "x"
  active := true, createdAt := "t0", updatedAt := "t0", retries := 2 }

/-- A second stored webhook, id `b`, counters at zero, `retries = 0`. -/
def wB : Webhook := {
  id := "b", name := "B", url := "http://example.com", method := "POST"
  headers := [("Content-Type", "application/json")], body := "x"
  active := true, createdAt := "t0", updatedAt := "t0", retries := 0 }

/-- A webhook whose endpoint will fail permanently, id `bad`,
`retries = 1`. -/
def wBad : Webhook := {
  id := "bad", name := "Bad", url := "http://example.com", method := "POST"
  headers := [("Content-Type", "application/json")], body := "x"
  active := true, createdAt := "t0", updatedAt := "t0", retries := 1 }

/-- An inactive webhook, id `off`. -/
def wOff : Webhook := {
  id := "off", name := "Off", url := "http://example.com", method := "POST"
  headers := [("Content-Type", "application/json")], body := "x"
  active := false, createdAt := "t0", updatedAt := "t0" }

/-- A webhook carrying earlier diagnostics: `lastStatus = 200` from a past
successful trigger. -/
def wDiag : Webhook := {
  id := "d", name := "D", url := "http://example.com", method := "POST"
  headers := [("Content-Type", "application/json")], body := "x"
  active := true, createdAt := "t0", updatedAt := "t0", retries := 1
  lastStatus := some 200, lastTriggered := some "t0" }

/-- Per-webhook endpoints: id `bad` always fails, everything else succeeds
at once. -/
def epsMixed : String → Nat → FetchResult :=
  fun id _ => if id = "bad" then .netError "down" else .response 200 "OK"

/-- Endpoints that succeed immediately for every webhook. -/
def epsOk : String → Nat → FetchResult := fun _ _ => .response 200 "OK"

/-- An endpoint whose every attempt is an HTTP 500 error. -/
def ep500 : Nat → FetchResult := fun _ => .response 500 "Internal Server Error"

/-- A creation payload whose only field is an invalid URL (the spec's
`add` scenario). -/
def dataBadUrl : WebhookCreateData := { url := some "not-a-url" }

/-- An update payload supplying only `timeout` (name and url omitted). -/
def dataTimeoutOnly : WebhookCreateData := { timeout := some 5000 }

/-- A valid update payload (name and url supplied). -/
def dataRename : WebhookCreateData :=
  { name := some "New", url := some "http://example.com" }

/-- A valid creation payload that explicitly asks for zero retries and zero
retry delay. -/
def dataZeroRetries : WebhookCreateData :=
  { name := some "N", url := some "http://example.com",
    retries := some 0, retryDelay := some 0 }

/-- A template that is exactly the unknown `channel` placeholder. -/
def chanTemplate : List Char := "\x7b\x7bchannel\x7d\x7d".toList

/-- A template that is exactly the unknown `messageId` placeholder. -/
def midTemplate : List Char := "\x7b\x7bmessageId\x7d\x7d".toList

/-! ## Helper lemmas -/

theorem startsWithL_iff (p : List Char) : ∀ s, startsWithL p s = true ↔ ∃ t, s = p ++ t := by
  induction p with
  | nil =>
      intro s
      simp [startsWithL]
  | cons a ps ih =>
      intro s
      cases s with
      | nil =>
          simp [startsWithL]
      | cons c cs =>
          simp only [startsWithL, Bool.and_eq_true, decide_eq_true_eq, ih cs]
          constructor
          · rintro ⟨rfl, t, rfl⟩
            exact ⟨t, rfl⟩
          · rintro ⟨t, h⟩
            cases h
            exact ⟨rfl, t, rfl⟩

theorem deliverLoop_allFail (ep : Nat → FetchResult) (hfail : ∀ i, (ep i).ok = false) :
    ∀ n idx, deliverLoop ep idx n =
      (.retriesExhausted ((ep (idx + n)).errMsg), idx + n + 1) := by
  intro n
  induction n with
  | zero =>
      intro idx
      simp [deliverLoop, hfail idx]
  | succ m ih =>
      intro idx
      have h := ih (idx + 1)
      simp only [deliverLoop, hfail idx, Bool.false_eq_true, if_false, h]
      have e : idx + 1 + m = idx + (m + 1) := by omega
      rw [e]

theorem deliverLoop_firstSuccess (ep : Nat → FetchResult) :
    ∀ j n idx, j ≤ n → (∀ i, i < j → (ep (idx + i)).ok = false) →
      (ep (idx + j)).ok = true →
      deliverLoop ep idx n = (.delivered ((ep (idx + j)).statusOf), idx + j + 1) := by
  intro j
  induction j with
  | zero =>
      intro n idx _ _ hok
      simp only [Nat.add_zero] at hok ⊢
      cases n <;> simp [deliverLoop, hok]
  | succ j ih =>
      intro n idx hjn hf hok
      obtain ⟨m, rfl⟩ : ∃ m, n = m + 1 := ⟨n - 1, by omega⟩
      have h0 : (ep idx).ok = false := by
        have := hf 0 (Nat.succ_pos j)
        simpa using this
      have hrec := ih m (idx + 1) (by omega)
        (fun i hi => by
          have := hf (i + 1) (by omega)
          have e : idx + (i + 1) = idx + 1 + i := by omega
          rwa [e] at this)
        (by
          have e : idx + (j + 1) = idx + 1 + j := by omega
          rwa [e] at hok)
      simp only [deliverLoop, h0, Bool.false_eq_true, if_false, hrec]
      have e : idx + 1 + j = idx + (j + 1) := by omega
      rw [e]

theorem occursB_cons_false {p : List Char} {c : Char} {cs : List Char}
    (h : occursB p (c :: cs) = false) :
    startsWithL p (c :: cs) = false ∧ occursB p cs = false := by
  simpa [occursB] using h

theorem replaceAllFuel_of_no_occurrence (p r : List Char) :
    ∀ fuel s, s.length ≤ fuel → occursB p s = false →
      replaceAllFuel p r fuel s = s := by
  intro fuel
  induction fuel with
  | zero =>
      intro s _ _
      rfl
  | succ f ih =>
      intro s hlen hocc
      cases s with
      | nil => rfl
      | cons c cs =>
          obtain ⟨hsw, htail⟩ := occursB_cons_false hocc
          simp only [replaceAllFuel, hsw, Bool.and_false, if_false]
          exact congrArg (c :: ·) (ih cs (by simpa using Nat.le_of_succ_le_succ hlen) htail)

theorem joinSegs_cons_head (sep : List Char) (c : Char) (t : List Char)
    (rest : List (List Char)) :
    joinSegs sep ((c :: t) :: rest) = c :: joinSegs sep (t :: rest) := by
  cases rest with
  | nil => rfl
  | cons u us => simp [joinSegs, List.cons_append]

theorem joinSegs_head_append (sep t : List Char) (rest : List (List Char)) :
    ∃ y, joinSegs sep (t :: rest) = t ++ y := by
  cases rest with
  | nil => exact ⟨[], by simp [joinSegs]⟩
  | cons u us => exact ⟨sep ++ joinSegs sep (u :: us), by simp [joinSegs, List.append_assoc]⟩

theorem startsWithL_false_of_head (p : List Char) (c : Char) (t0 : List Char)
    (rest : List (List Char)) (hsw : startsWithL p (joinSegs p ((c :: t0) :: rest)) = false) :
    startsWithL p (c :: t0) = false := by
  by_contra h
  have h' : startsWithL p (c :: t0) = true := by
    cases hb : startsWithL p (c :: t0) with
    | false => exact absurd hb h
    | true => rfl
  obtain ⟨t, ht⟩ := (startsWithL_iff p (c :: t0)).mp h'
  obtain ⟨y, hy⟩ := joinSegs_head_append p (c :: t0) rest
  have : startsWithL p (joinSegs p ((c :: t0) :: rest)) = true := by
    rw [hy, ht]
    exact (startsWithL_iff p _).mpr ⟨t ++ y, by simp [List.append_assoc]⟩
  rw [this] at hsw
  exact absurd hsw (by simp)

/-- Leftmost global-replace factorization: a scan of `s` splits it into
segments free of the pattern, separated by the replaced occurrences; the
output is the same segments separated by the replacement. -/
theorem replaceAllFuel_segs (p r : List Char) (hp : p ≠ []) :
    ∀ fuel s, s.length ≤ fuel →
      ∃ segs : List (List Char), segs ≠ [] ∧ s = joinSegs p segs ∧
        replaceAllFuel p r fuel s = joinSegs r segs ∧
        ∀ t ∈ segs, occursB p t = false := by
  have hocc_nil : occursB p [] = false := by
    cases p with
    | nil => exact absurd rfl hp
    | cons a ps => simp [occursB, startsWithL]
  intro fuel
  induction fuel with
  | zero =>
      intro s hlen
      have hs : s = [] := List.length_eq_zero.mp (Nat.le_zero.mp hlen)
      subst hs
      exact ⟨[[]], by simp, rfl, rfl, by simpa [joinSegs] using hocc_nil⟩
  | succ f ih =>
      intro s hlen
      cases s with
      | nil =>
          exact ⟨[[]], by simp, rfl, rfl, by simpa [joinSegs] using hocc_nil⟩
      | cons c cs =>
          by_cases hm : startsWithL p (c :: cs) = true
          · -- matched: emit `r`, continue after the occurrence
            obtain ⟨t, ht⟩ := (startsWithL_iff p (c :: cs)).mp hm
            have hdrop : List.drop p.length (c :: cs) = t := by
              rw [ht]
              simp
            have hlt : t.length ≤ f := by
              have : (c :: cs).length = p.length + t.length := by
                rw [ht]; simp
              have hp1 : 1 ≤ p.length := by
                cases p with
                | nil => exact absurd rfl hp
                | cons _ _ => simp
              simp only [List.length_cons] at hlen this
              omega
            obtain ⟨segs', hne', hjoin', hout', hfree'⟩ := ih t hlt
            obtain ⟨t0, rest', rfl⟩ : ∃ t0 rest', segs' = t0 :: rest' := by
              cases segs' with
              | nil => exact absurd rfl hne'
              | cons t0 rest' => exact ⟨t0, rest', rfl⟩
            refine ⟨[] :: t0 :: rest', by simp, ?_, ?_, ?_⟩
            · show c :: cs = [] ++ p ++ joinSegs p (t0 :: rest')
              rw [← hjoin', ht]
              simp
            · have hcond : (decide (p ≠ []) && startsWithL p (c :: cs)) = true := by
                simp [hp, hm]
              simp only [replaceAllFuel, hcond, if_true, hdrop, hout']
              show r ++ joinSegs r (t0 :: rest') = [] ++ r ++ joinSegs r (t0 :: rest')
              simp
            · intro x hx
              rcases List.mem_cons.mp hx with h | h
              · subst h; exact hocc_nil
              · exact hfree' x h
          · -- not matched: keep `c`, continue on `cs`
            have hsw : startsWithL p (c :: cs) = false := by
              cases hb : startsWithL p (c :: cs) with
              | false => rfl
              | true => exact absurd hb hm
            obtain ⟨segs', hne', hjoin', hout', hfree'⟩ :=
              ih cs (by simpa using Nat.le_of_succ_le_succ hlen)
            obtain ⟨t0, rest', rfl⟩ : ∃ t0 rest', segs' = t0 :: rest' := by
              cases segs' with
              | nil => exact absurd rfl hne'
              | cons t0 rest' => exact ⟨t0, rest', rfl⟩
            refine ⟨(c :: t0) :: rest', by simp, ?_, ?_, ?_⟩
            · rw [joinSegs_cons_head, ← hjoin']
            · have hcond : (decide (p ≠ []) && startsWithL p (c :: cs)) = false := by
                simp [hsw]
              simp only [replaceAllFuel, hcond, if_false, hout', joinSegs_cons_head]
              simp
            · intro x hx
              rcases List.mem_cons.mp hx with h | h
              · subst h
                have hswh : startsWithL p (c :: t0) = false := by
                  apply startsWithL_false_of_head p c t0 rest'
                  rw [joinSegs_cons_head, ← hjoin']
                  exact hsw
                have hfree0 : occursB p t0 = false := hfree' t0 (List.mem_cons_self _ _)
                simp [occursB, hswh, hfree0]
              · exact hfree' x (List.mem_cons_of_mem _ h)

/-- The factorization, stated for `replaceAll` itself. -/
theorem replaceAll_segs (p r s : List Char) (hp : p ≠ []) :
    ∃ segs : List (List Char), segs ≠ [] ∧ s = joinSegs p segs ∧
      replaceAll p r s = joinSegs r segs ∧
      ∀ t ∈ segs, occursB p t = false :=
  replaceAllFuel_segs p r hp s.length s (Nat.le_refl _)

/-- A pattern-free string is left unchanged by the global replace. -/
theorem replaceAll_of_no_occurrence (p r s : List Char) (hocc : occursB p s = false) :
    replaceAll p r s = s :=
  replaceAllFuel_of_no_occurrence p r s.length s (Nat.le_refl _) hocc

/-- Every joined element occurs verbatim inside the joined string. -/
theorem mem_joinWith_data (sep : String) :
    ∀ (l : List String) (e : String), e ∈ l →
      ∃ p q : List Char, (joinWith sep l).data = p ++ e.data ++ q := by
  intro l
  induction l with
  | nil =>
      intro e he
      exact absurd he (List.not_mem_nil e)
  | cons a rest ih =>
      intro e he
      cases rest with
      | nil =>
          have : e = a := by simpa using he
          subst this
          exact ⟨[], [], by simp [joinWith]⟩
      | cons b rs =>
          rcases List.mem_cons.mp he with h | h
          · subst h
            refine ⟨[], (sep ++ joinWith sep (b :: rs)).data, ?_⟩
            show (e ++ sep ++ joinWith sep (b :: rs)).data = [] ++ e.data ++ _
            simp [String.data_append, List.append_assoc]
          · obtain ⟨p, q, hp⟩ := ih e h
            refine ⟨(a ++ sep).data ++ p, q, ?_⟩
            show (a ++ sep ++ joinWith sep (b :: rs)).data = _
            simp [String.data_append, hp, List.append_assoc]

/-- A conditional map whose condition matches no element is the identity. -/
theorem map_keep_of_no_id (ws : List Webhook) (id : String) (f : Webhook → Webhook)
    (h : ∀ w ∈ ws, w.id ≠ id) :
    (ws.map fun w => if w.id = id then f w else w) = ws := by
  induction ws with
  | nil => rfl
  | cons a rest ih =>
      have ha : a.id ≠ id := h a (List.mem_cons_self _ _)
      simp only [List.map_cons, if_neg ha]
      rw [ih fun w hw => h w (List.mem_cons_of_mem _ hw)]

/-- A list with a cons somewhere inside is not empty. -/
theorem isEmpty_append_cons (l1 : List String) (x : String) (l2 : List String) :
    (l1 ++ x :: l2).isEmpty = false := by
  cases l1 with
  | nil => rfl
  | cons a rest => rfl

/-! ## Claims -/

/-- C2: for a webhook with `retries = N` whose endpoint fails on every
attempt, the delivery loop performs exactly `N + 1` fetch attempts, exits
as retries-exhausted, and the sequence's single stat write increments the
webhook's `failureCount` (and `triggerCount`) by exactly one. -/
theorem trigger_allFail_attempts_exhausted (base : List Webhook) (w : Webhook)
    (ep : Nat → FetchResult) (now : String)
    (hact : w.active = true) (hfail : ∀ i, (ep i).ok = false) :
    (triggerWebhook base w ep now).2 =
      some (.retriesExhausted ((ep w.retries).errMsg), w.retries + 1)
    ∧ (triggerWebhook base w ep now).1 =
      base.map fun x => if x.id = w.id then
        { x with triggerCount := x.triggerCount + 1,
                 failureCount := x.failureCount + 1,
                 lastTriggered := some now,
                 lastError := some ((ep w.retries).errMsg) } else x := by
  have hd := deliverLoop_allFail ep hfail w.retries 0
  simp only [Nat.zero_add] at hd
  constructor
  · simp [triggerWebhook, hact, hd]
  · simp [triggerWebhook, hact, hd, recordWrite, applyOutcome]

/-- Witness for C2: `wA` has `retries = 2`; with an always-failing endpoint
its sequence makes 3 attempts, ends retries-exhausted with the transport
error message, and bumps `failureCount` from 0 to 1. -/
theorem trigger_allFail_attempts_exhausted_witness :
    wA.active = true ∧ (∀ i, (epFail i).ok = false) ∧
    (triggerWebhook [wA] wA epFail "t1").2 =
      some (.retriesExhausted "ECONNREFUSED", 3) ∧
    ((triggerWebhook [wA] wA epFail "t1").1.map fun x => x.failureCount) = [1] := by
  refine ⟨rfl, fun i => rfl, ?_, ?_⟩
  · exact (trigger_allFail_attempts_exhausted [wA] wA epFail "t1" rfl fun i => rfl).1
  · rw [(trigger_allFail_attempts_exhausted [wA] wA epFail "t1" rfl fun i => rfl).2]
    decide

/-- C3 (amended): an endpoint first succeeding on attempt `k ≤ N + 1`
yields exactly `k` attempts and a delivered (success) outcome, with the
success write setting `lastStatus`/clearing `lastError`; on exhaustion the
kept `lastError` is the *last* attempt's error (earlier attempts'
diagnostics discarded) while `lastStatus` is left at its prior value — the
failure write does not touch it. -/
theorem trigger_firstSuccess_attempts :
    (∀ (base : List Webhook) (w : Webhook) (ep : Nat → FetchResult) (now : String) (k : Nat),
      w.active = true → 1 ≤ k → k ≤ w.retries + 1 →
      (∀ i, i < k - 1 → (ep i).ok = false) → (ep (k - 1)).ok = true →
      (triggerWebhook base w ep now).2 =
        some (.delivered ((ep (k - 1)).statusOf), k)
      ∧ (triggerWebhook base w ep now).1 =
        base.map fun x => if x.id = w.id then
          { x with triggerCount := x.triggerCount + 1,
                   successCount := x.successCount + 1,
                   lastTriggered := some now,
                   lastStatus := some ((ep (k - 1)).statusOf),
                   lastError := none } else x)
    ∧ (∀ (x : Webhook) (e : String) (now : String),
        (applyOutcome x (.retriesExhausted e) now).lastError = some e
        ∧ (applyOutcome x (.retriesExhausted e) now).lastStatus = x.lastStatus) := by
  constructor
  · intro base w ep now k hact hk1 hkn hf hok
    have hd := deliverLoop_firstSuccess ep (k - 1) w.retries 0 (by omega)
      (fun i hi => by simpa using hf i hi) (by simpa using hok)
    have e : 0 + (k - 1) + 1 = k := by omega
    simp only [Nat.zero_add] at hd
    rw [show k - 1 + 1 = k from by omega] at hd
    constructor
    · simp [triggerWebhook, hact, hd]
    · simp [triggerWebhook, hact, hd, recordWrite, applyOutcome]
  · intro x e now
    exact ⟨rfl, rfl⟩

/-- Witness for C3: `wA` (`retries = 2`) against an endpoint that fails
attempt 0 and succeeds on attempt 1 (`k = 2`): exactly 2 attempts, success,
`lastStatus` set to 200; and the exhaustion write on `wDiag` keeps its old
`lastStatus` while storing the final error. -/
theorem trigger_firstSuccess_attempts_witness :
    wA.active = true ∧ (1 : Nat) ≤ 2 ∧ (2 : Nat) ≤ wA.retries + 1 ∧
    (triggerWebhook [wA] wA
        (fun i => if i = 0 then .netError "x" else .response 200 "OK") "t1").2 =
      some (.delivered 200, 2) ∧
    (applyOutcome wDiag (.retriesExhausted "HTTP 500: Internal Server Error") "t1").lastStatus
      = some 200 := by
  refine ⟨rfl, by omega, by decide, ?_, ?_⟩
  · exact (trigger_firstSuccess_attempts.1 [wA] wA
      (fun i => if i = 0 then .netError "x" else .response 200 "OK") "t1" 2
      rfl (by omega) (by decide)
      (fun i hi => by interval_cases i; rfl) rfl).1
  · rw [(trigger_firstSuccess_attempts.2 wDiag "HTTP 500: Internal Server Error" "t1").2]
    decide

/-- C4: `testWebhook` performs exactly one fetch attempt (no retry loop),
returns a result reflecting that single attempt's outcome, and passes the
stored collection through unchanged — no counter or diagnostic field of any
persisted webhook is touched. -/
theorem testWebhook_frame :
    ∀ (ws : List Webhook) (w : Webhook) (ep : Nat → FetchResult) (rt : Nat) (now : String),
      (testWebhook ws w ep rt now).1 = ws
      ∧ (testWebhook ws w ep rt now).2.2 = 1
      ∧ (testWebhook ws w ep rt now).2.1.success = (ep 0).ok := by
  intro ws w ep rt now
  refine ⟨rfl, rfl, ?_⟩
  cases h : ep 0 with
  | response s st => simp [testWebhook, FetchResult.ok, h]
  | netError m => simp [testWebhook, FetchResult.ok, h]

/-- Counterexample to C1 as stated: `triggerWebhooks` resolves with
`undefined` (`Promise<void>`), so no reading of its return value can yield
one delivery result per active webhook — the return value of a trigger
over one active webhook is indistinguishable from that of a trigger over
none. -/
theorem triggerWebhooks_returns_no_result_map :
    ¬ ∃ results : Unit → List (String × Bool),
      ∀ (ws : List Webhook) (eps : String → Nat → FetchResult) (now : String),
        (results (triggerWebhooks ws eps now).2).length
          = (ws.filter fun w => w.active).length := by
  rintro ⟨f, hf⟩
  have h0 := hf [] epsOk "t"
  have h1 := hf [wA] epsOk "t"
  have e0 : (([] : List Webhook).filter fun w => w.active).length = 0 := rfl
  have e1 : ([wA].filter fun w => w.active).length = 1 := rfl
  rw [e0] at h0
  rw [e1] at h1
  have eu : (triggerWebhooks [] epsOk "t").2 = (triggerWebhooks [wA] epsOk "t").2 := rfl
  rw [eu] at h0
  omega

/-- C1 (amended): `triggerWebhooks` runs one delivery sequence per active
webhook — inactive webhooks are absent entirely — and every sequence
settles before it returns: with one permanently failing webhook among
otherwise immediately-succeeding active webhooks, the failing webhook's
sequence settles as retries-exhausted while every other active webhook's
sequence settles as delivered; but the call resolves with void, returning
no per-webhook result collection. -/
theorem triggerWebhooks_settles_every_active (ws : List Webhook)
    (eps : String → Nat → FetchResult) (now : String) (badId : String)
    (hbad : ∀ i, (eps badId i).ok = false)
    (hgood : ∀ w ∈ ws, w.active = true → w.id ≠ badId → (eps w.id 0).ok = true) :
    (triggerWebhooks ws eps now).2 = ()
    ∧ ((triggerWebhooks ws eps now).1.2.map fun e => e.1)
        = ((ws.filter fun w => w.active).map fun w => w.id)
    ∧ ∀ e ∈ (triggerWebhooks ws eps now).1.2,
        (e.1 = badId → ∃ err a, e.2 = (.retriesExhausted err, a))
        ∧ (e.1 ≠ badId → e.2 = (.delivered ((eps e.1 0).statusOf), 1)) := by
  refine ⟨rfl, ?_, ?_⟩
  · simp [triggerWebhooks, List.map_map, Function.comp]
  · intro e he
    simp only [triggerWebhooks] at he
    obtain ⟨w, hw, rfl⟩ := List.mem_map.mp he
    obtain ⟨hmem, hact⟩ := List.mem_filter.mp hw
    constructor
    · intro hid
      simp only at hid
      rw [hid]
      exact ⟨(eps badId w.retries).errMsg, w.retries + 1, by
        simpa using deliverLoop_allFail (eps badId) hbad w.retries 0⟩
    · intro hid
      simp only at hid ⊢
      have hok : (eps w.id 0).ok = true := hgood w hmem hact hid
      have h := deliverLoop_firstSuccess (eps w.id) 0 w.retries 0 (Nat.zero_le _)
        (fun i hi => absurd hi (Nat.not_lt_zero i)) (by simpa using hok)
      simpa using h

/-- Witness for C1 (amended): over `[wA, wBad, wOff]` with `wBad`'s
endpoint permanently failing, the log covers exactly the two active
webhooks (the inactive `off` is absent), `bad` settles exhausted after its
2 attempts and `a` settles delivered after 1. -/
theorem triggerWebhooks_settles_every_active_witness :
    (∀ i, (epsMixed "bad" i).ok = false)
    ∧ (∀ w ∈ [wA, wBad, wOff], w.active = true → w.id ≠ "bad" →
        (epsMixed w.id 0).ok = true)
    ∧ ((triggerWebhooks [wA, wBad, wOff] epsMixed "t1").1.2.map fun e => e.1)
        = ["a", "bad"] := by
  refine ⟨fun i => rfl, by decide, ?_⟩
  have h := (triggerWebhooks_settles_every_active [wA, wBad, wOff] epsMixed "t1" "bad"
    (fun i => rfl) (by decide)).2.1
  rw [h]
  decide

/-- Counterexample to C5 as stated: a template consisting of the
`channel` placeholder is rendered unchanged — the placeholder is not
replaced with the context's channel value (here `general`), because the
source only substitutes `message`, `user` and `timestamp`. -/
theorem renderBody_keeps_unknown_channel :
    renderBody chanTemplate "hi".toList "bob".toList "2024-01-01".toList = chanTemplate
    ∧ chanTemplate ≠ "general".toList := by
  decide

/-- C5 (amended): rendering is a pure function of template, message, user
and sampled timestamp (hence deterministic); every left-to-right
non-overlapping occurrence of each known placeholder (`message`, `user`,
`timestamp`) is replaced with the corresponding value — witness the
segment factorization of each replacement stage — and a template free of
all three known placeholders (in particular one holding only unknown
placeholders such as `channel` or `messageId`) is rendered verbatim. -/
theorem render_substitutes_known_keeps_unknown :
    (∀ t m u ts : List Char,
        occursB msgPat t = false → occursB userPat t = false →
        occursB tsPat t = false → renderBody t m u ts = t)
    ∧ (∀ p r s : List Char, p ≠ [] →
        ∃ segs : List (List Char), segs ≠ [] ∧ s = joinSegs p segs ∧
          replaceAll p r s = joinSegs r segs ∧ ∀ x ∈ segs, occursB p x = false) := by
  constructor
  · intro t m u ts h1 h2 h3
    unfold renderBody
    rw [replaceAll_of_no_occurrence msgPat m t h1,
        replaceAll_of_no_occurrence userPat u t h2,
        replaceAll_of_no_occurrence tsPat ts t h3]
  · intro p r s hp
    exact replaceAll_segs p r s hp

/-- Witness for C5 (amended): the `messageId` template is free of the
three known placeholders and renders verbatim; and the message stage of
`a...b` factorizes around its one `message` placeholder occurrence. -/
theorem render_substitutes_known_keeps_unknown_witness :
    (occursB msgPat midTemplate = false ∧ occursB userPat midTemplate = false
      ∧ occursB tsPat midTemplate = false
      ∧ renderBody midTemplate "m".toList "u".toList "ts".toList = midTemplate)
    ∧ (msgPat ≠ []
      ∧ ∃ segs : List (List Char), segs ≠ []
          ∧ "a\x7b\x7bmessage\x7d\x7db".toList = joinSegs msgPat segs
          ∧ replaceAll msgPat "hi".toList "a\x7b\x7bmessage\x7d\x7db".toList
              = joinSegs "hi".toList segs
          ∧ ∀ x ∈ segs, occursB msgPat x = false) := by
  refine ⟨⟨by decide, by decide, by decide, ?_⟩, ⟨by decide, ?_⟩⟩
  · exact render_substitutes_known_keeps_unknown.1 midTemplate "m".toList "u".toList
      "ts".toList (by decide) (by decide) (by decide)
  · exact render_substitutes_known_keeps_unknown.2 msgPat "hi".toList
      "a\x7b\x7bmessage\x7d\x7db".toList (by decide)

/-- C6: when validation fails, `addWebhook` throws an error whose message
is the join of the whole error list — every failing check's message occurs
verbatim in it, not only the first — and the stored collection is left
unchanged (the throw happens before any record is built or persisted). -/
theorem addWebhook_invalid_reports_all (up : String → Option String)
    (jk : String → Bool) (ws : List Webhook) (data : WebhookCreateData)
    (newId now : String) (hinv : (validateWebhookData up jk data).1 = false) :
    addWebhook up jk ws data newId now
      = .error (joinWith ", " (validateWebhookData up jk data).2)
    ∧ (∀ e ∈ (validateWebhookData up jk data).2,
        ∃ p q : List Char,
          (joinWith ", " (validateWebhookData up jk data).2).data = p ++ e.data ++ q)
    ∧ addWebhookState up jk ws data newId now = ws := by
  have h1 : addWebhook up jk ws data newId now
      = .error (joinWith ", " (validateWebhookData up jk data).2) := by
    simp [addWebhook, hinv]
  refine ⟨h1, fun e he => mem_joinWith_data ", " _ e he, ?_⟩
  simp [addWebhookState, h1]

/-- Witness for C6: the spec's scenario — `add` with only an invalid URL
fails validation on both missing name and malformed URL, throws the
two-part message, and persists nothing. -/
theorem addWebhook_invalid_reports_all_witness :
    (validateWebhookData upSample jkSample dataBadUrl).1 = false
    ∧ addWebhook upSample jkSample [wA] dataBadUrl "id9" "t9"
        = .error "Name is required, Invalid URL format"
    ∧ addWebhookState upSample jkSample [wA] dataBadUrl "id9" "t9" = [wA] := by
  have h := addWebhook_invalid_reports_all upSample jkSample [wA] dataBadUrl
    "id9" "t9" (by decide)
  exact ⟨by decide, h.1.trans (by rfl), h.2.2⟩

/-- Counterexample to C7 as stated: an update payload supplying only
`timeout` — name and url omitted — against an existing id is rejected, and
the error names exactly the two omitted fields: `updateWebhook` runs the
same validator as `addWebhook`, which requires name and url
unconditionally. -/
theorem updateWebhook_rejects_omitted_fields :
    ("a" ∈ [wA].map fun w => w.id)
    ∧ updateWebhook upSample jkSample [wA] "a" dataTimeoutOnly "t2"
      = .error "Name is required, URL is required" := by
  exact ⟨by decide, by rfl⟩

/-- C7 (amended): `update(id, data)` validates the payload requiring name
and url to be present and valid — omitting either rejects the update —
while the remaining fields are checked only when supplied; when validation
passes it merges exactly the supplied fields into the matching record
(absent fields keep the record's values), sets `updatedAt` to the current
time, and persists the mapped collection. -/
theorem updateWebhook_merges_supplied_fields :
    (∀ (up : String → Option String) (jk : String → Bool) (ws : List Webhook)
        (id : String) (data : WebhookCreateData) (now : String),
      (validateWebhookData up jk data).1 = true →
        updateWebhook up jk ws id data now
          = .ok (ws.map fun w => if w.id = id then mergeData w data now else w))
    ∧ (∀ (w : Webhook) (data : WebhookCreateData) (now : String),
        (mergeData w data now).updatedAt = now
        ∧ (data.method = none → (mergeData w data now).method = w.method)
        ∧ (data.body = none → (mergeData w data now).body = w.body)
        ∧ (data.timeout = none → (mergeData w data now).timeout = w.timeout)
        ∧ (data.retries = none → (mergeData w data now).retries = w.retries)
        ∧ (∀ n, data.name = some n → (mergeData w data now).name = n))
    ∧ (∀ (up : String → Option String) (jk : String → Bool) (ws : List Webhook)
        (id : String) (data : WebhookCreateData) (now : String),
        data.name = none ∨ data.url = none →
        ∃ msg, updateWebhook up jk ws id data now = .error msg) := by
  refine ⟨?_, ?_, ?_⟩
  · intro up jk ws id data now hv
    simp [updateWebhook, hv]
  · intro w data now
    refine ⟨rfl, ?_, ?_, ?_, ?_, ?_⟩
    · intro h; simp [mergeData, h]
    · intro h; simp [mergeData, h]
    · intro h; simp [mergeData, h]
    · intro h; simp [mergeData, h]
    · intro n h; simp [mergeData, h]
  · intro up jk ws id data now h
    have hv : (validateWebhookData up jk data).1 = false := by
      rcases h with hn | hu
      · simp only [validateWebhookData, hn, List.singleton_append]
        exact isEmpty_append_cons [] "Name is required" _
      · simp only [validateWebhookData, hu, List.append_assoc, List.singleton_append]
        exact isEmpty_append_cons _ _ _
    refine ⟨joinWith ", " (validateWebhookData up jk data).2, ?_⟩
    simp [updateWebhook, hv]

/-- Witness for C7 (amended): renaming `wA` with a valid payload merges
the new name and bumps `updatedAt`; the timeout-only payload (name
omitted) is rejected. -/
theorem updateWebhook_merges_supplied_fields_witness :
    (validateWebhookData upSample jkSample dataRename).1 = true
    ∧ updateWebhook upSample jkSample [wA] "a" dataRename "t3"
        = .ok [mergeData wA dataRename "t3"]
    ∧ (mergeData wA dataRename "t3").updatedAt = "t3"
    ∧ (mergeData wA dataRename "t3").name = "New"
    ∧ (mergeData wA dataRename "t3").retries = wA.retries
    ∧ (dataTimeoutOnly.name = none ∨ dataTimeoutOnly.url = none)
    ∧ ∃ msg, updateWebhook upSample jkSample [wA] "a" dataTimeoutOnly "t3"
        = .error msg := by
  refine ⟨by decide, ?_, ?_, ?_, ?_, Or.inl rfl, ?_⟩
  · exact (updateWebhook_merges_supplied_fields.1 upSample jkSample [wA] "a"
      dataRename "t3" (by decide)).trans (by rfl)
  · exact (updateWebhook_merges_supplied_fields.2.1 wA dataRename "t3").1
  · exact (updateWebhook_merges_supplied_fields.2.1 wA dataRename "t3").2.2.2.2.2
      "New" rfl
  · exact (updateWebhook_merges_supplied_fields.2.1 wA dataRename "t3").2.2.2.2.1 rfl
  · exact updateWebhook_merges_supplied_fields.2.2 upSample jkSample [wA] "a"
      dataTimeoutOnly "t3" (Or.inl rfl)

/-- C8 (code bug, concrete run): both active webhooks `a` and `b` succeed
immediately — the log records a delivered outcome for each — yet after the
trigger only `b`'s `successCount` is 1: `a`'s counter update was computed
from, and then overwritten by, a write derived from the same stale
snapshot, so its increment is lost. -/
theorem triggerWebhooks_lost_counter_update :
    ((triggerWebhooks [wA, wB] epsOk "t1").1.2
      = [("a", .delivered 200, 1), ("b", .delivered 200, 1)])
    ∧ (((triggerWebhooks [wA, wB] epsOk "t1").1.1.map fun w => (w.id, w.successCount))
      = [("a", 0), ("b", 1)]) := by
  decide

/-- C9: a creation payload that passes validation with an explicit
`retries: 0` (a value `validateRetries` accepts) is stored with the global
default `retries = 3` — the `||` defaulting replaces the falsy `0` — and
likewise an explicit `retryDelay: 0` is stored as `1000`. -/
theorem addWebhook_zero_retries_defaulted (up : String → Option String)
    (jk : String → Bool) (ws : List Webhook) (data : WebhookCreateData)
    (newId now : String) (hvalid : (validateWebhookData up jk data).1 = true)
    (hr : data.retries = some 0) (hd : data.retryDelay = some 0) :
    addWebhook up jk ws data newId now
      = .ok (ws ++ [builtWebhook data newId now], newId)
    ∧ (builtWebhook data newId now).retries = 3
    ∧ (builtWebhook data newId now).retryDelay = 1000 := by
  refine ⟨by simp [addWebhook, hvalid], ?_, ?_⟩
  · simp [builtWebhook, hr]
  · simp [builtWebhook, hd]

/-- Witness for C9: the zero-retries payload validates (0 is within the
validator's 0..10 range) yet the stored record has `retries = 3` and
`retryDelay = 1000`. -/
theorem addWebhook_zero_retries_defaulted_witness :
    (validateWebhookData upSample jkSample dataZeroRetries).1 = true
    ∧ dataZeroRetries.retries = some 0
    ∧ (builtWebhook dataZeroRetries "id1" "t1").retries = 3
    ∧ (builtWebhook dataZeroRetries "id1" "t1").retryDelay = 1000 := by
  have h := addWebhook_zero_retries_defaulted upSample jkSample [] dataZeroRetries
    "id1" "t1" (by decide) rfl rfl
  exact ⟨by decide, rfl, h.2.1, h.2.2⟩

/-- Counterexample to C10 as stated: `update` on an id absent from the
store still validates its payload first, so with an empty payload it
raises a validation error instead of completing silently. -/
theorem updateWebhook_missing_id_raises :
    ("missing" ∉ [wA].map fun w => w.id)
    ∧ updateWebhook upSample jkSample [wA] "missing" {} "t2"
      = .error "Name is required, URL is required" := by
  exact ⟨by decide, by rfl⟩

/-- C10 (amended): for an id absent from the store, `deleteWebhook` and
`toggleWebhook` complete without error and leave the collection exactly
unchanged, and `updateWebhook` does too provided its payload passes
validation — but a payload failing validation raises regardless of the
id. -/
theorem missing_id_mutations_frame (up : String → Option String)
    (jk : String → Bool) (ws : List Webhook) (id : String)
    (data : WebhookCreateData) (now ts : String)
    (hmiss : ∀ w ∈ ws, w.id ≠ id) :
    deleteWebhook ws id = ws
    ∧ toggleWebhook ws id ts = ws
    ∧ ((validateWebhookData up jk data).1 = true →
        updateWebhook up jk ws id data now = .ok ws) := by
  refine ⟨?_, ?_, ?_⟩
  · unfold deleteWebhook
    exact List.filter_eq_self.mpr fun w hw => by simpa using hmiss w hw
  · exact map_keep_of_no_id ws id _ hmiss
  · intro hv
    have hmap := map_keep_of_no_id ws id (fun w => mergeData w data now) hmiss
    simp [updateWebhook, hv, hmap]

/-- Witness for C10 (amended): with store `[wA]` and absent id `zzz`,
delete and toggle return the store unchanged, and update with a valid
payload returns it unchanged as well. -/
theorem missing_id_mutations_frame_witness :
    (∀ w ∈ [wA], w.id ≠ "zzz")
    ∧ deleteWebhook [wA] "zzz" = [wA]
    ∧ toggleWebhook [wA] "zzz" "t4" = [wA]
    ∧ (validateWebhookData upSample jkSample dataRename).1 = true
    ∧ updateWebhook upSample jkSample [wA] "zzz" dataRename "t4" = .ok [wA] := by
  have h := missing_id_mutations_frame upSample jkSample [wA] "zzz" dataRename
    "t4" "t4" (by decide)
  exact ⟨by decide, h.1, h.2.1, by decide, h.2.2 (by decide)⟩

/-- Counterexample to C3 as stated: `wDiag` carries `lastStatus = 200` from
an earlier success; every attempt of this trigger fails with HTTP 500, yet
after exhaustion the record still shows `lastStatus = 200` — the failure
write never touches `lastStatus`, so the kept status is not that of the
last attempt (500). -/
theorem trigger_exhausted_keeps_stale_lastStatus :
    ((triggerWebhook [wDiag] wDiag ep500 "t1").1.map fun w => w.lastStatus) = [some 200]
    ∧ (ep500 wDiag.retries).statusOf = 500
    ∧ (some 200 : Option Nat) ≠ some 500 := by
  decide
